import Mathlib

/-!
Verification development for the CodeCollaborator real-time collaboration
coordinator.  The definitions below are a shallow embedding of the server
routes (`registerRoutes` in the routing module: WebSocket handlers for
`join_session`, `leave_session`, `code_change`, `chat_message`, the socket
close handlers, `broadcastToSession`, and the collaboration-request HTTP
endpoints) together with the storage layer (`DBStorage`) and the slug
utilities of `shared/utils.ts`.
-/

namespace CodeCollab

/-- A row of the `sessions` table (the fields the coordinator reads). -/
structure Session where
  id : String
  ownerId : String
  isPublic : Bool
  deriving DecidableEq

/-- A row of the `session_participants` table. -/
structure Participant where
  id : Nat
  sessionId : String
  userId : String
  cursor : Option String
  isActive : Bool
  deriving DecidableEq

/-- A row of the `collaboration_requests` table. -/
structure CollabRequest where
  id : Nat
  sessionId : String
  fromUserId : String
  status : String
  deriving DecidableEq

/-- A row of the `files` table (the fields the coordinator touches). -/
structure FileRec where
  id : String
  sessionId : String
  content : String
  deriving DecidableEq

/-- A row of the `messages` table. -/
structure MessageRec where
  id : Nat
  sessionId : String
  userId : String
  content : String
  deriving DecidableEq

/-- A row of the `notifications` table (only the target user and kind matter
to the claims). -/
structure NotificationRec where
  userId : String
  kind : String
  deriving DecidableEq

/-- The persistent store backing `DBStorage`.  The `next*` counters model the
serial primary keys assigned by the database. -/
structure DB where
  sessions : List Session
  participants : List Participant
  requests : List CollabRequest
  filesTbl : List FileRec
  messagesTbl : List MessageRec
  notificationsTbl : List NotificationRec
  nextParticipantId : Nat
  nextRequestId : Nat
  nextMessageId : Nat
  deriving DecidableEq

/-- A live WebSocket client (`ClientConnection` in the routes module).
`live` models `ws.readyState === WebSocket.OPEN`; `userId = ""` is the
unauthenticated sentinel used by the code. -/
structure Client where
  id : Nat
  userId : String
  sessionId : Option String
  live : Bool
  deriving DecidableEq

/-- The coordinator state: the `clients` set plus the storage handle. -/
structure ServerState where
  clients : List Client
  db : DB
  deriving DecidableEq

/-- Server→client wire messages produced by the handlers under study. -/
inductive WireMsg where
  | errorMsg (text : String)
  | accessDenied (sessionId : String)
  | participantsUpdate (participants : List Participant)
  | codeChangeMsg (fileId content userId : String)
  | chatMsg (m : MessageRec)
  deriving DecidableEq

/-- Ordered observable effects of one handler invocation: storage writes for
files/messages and per-connection sends, in program order. -/
inductive Effect where
  | writeFile (fileId : String) (content : String)
  | insertMessage (m : MessageRec)
  | send (clientId : Nat) (msg : WireMsg)
  deriving DecidableEq

/-! ### Storage layer (`DBStorage`) -/

/-- `DBStorage.getSession`. -/
def getSession (db : DB) (sid : String) : Option Session :=
  db.sessions.find? (fun s => s.id == sid)

/-- `DBStorage.getSessionParticipants` with its `activeOnly` filter
(default `false` at the call sites that pass no second argument). -/
def getSessionParticipants (db : DB) (sid : String) (activeOnly : Bool) :
    List Participant :=
  db.participants.filter (fun p => p.sessionId == sid && (!activeOnly || p.isActive))

/-- `DBStorage.addParticipant`: inserts a fresh row with a serial id. -/
def addParticipant (db : DB) (sid uid : String) (cursor : Option String)
    (isActive : Bool) : DB :=
  { db with
    participants :=
      db.participants ++ [⟨db.nextParticipantId, sid, uid, cursor, isActive⟩],
    nextParticipantId := db.nextParticipantId + 1 }

/-- The partial update object passed to `DBStorage.updateParticipant`; the
routes only ever set `isActive` and `cursor`. -/
structure ParticipantUpdate where
  isActive : Option Bool
  cursor : Option (Option String)

/-- Field-wise application of a `Partial<InsertSessionParticipant>` update. -/
def applyParticipantUpdate (p : Participant) (u : ParticipantUpdate) : Participant :=
  { p with
    isActive := u.isActive.getD p.isActive,
    cursor := u.cursor.getD p.cursor }

/-- `DBStorage.updateParticipant` (update by row id). -/
def updateParticipant (db : DB) (pid : Nat) (u : ParticipantUpdate) : DB :=
  { db with
    participants := db.participants.map
      (fun p => if p.id == pid then applyParticipantUpdate p u else p) }

/-- `DBStorage.removeParticipant`: sets `isActive := false` on every row of
the (session, user) pair; it never deletes. -/
def removeParticipant (db : DB) (sid uid : String) : DB :=
  { db with
    participants := db.participants.map
      (fun p =>
        if p.sessionId == sid && p.userId == uid then { p with isActive := false }
        else p) }

/-- `DBStorage.getCollaborationRequestsByUser`. -/
def getCollaborationRequestsByUser (db : DB) (uid : String) : List CollabRequest :=
  db.requests.filter (fun r => r.fromUserId == uid)

/-- `DBStorage.getCollaborationRequest`. -/
def getCollaborationRequest (db : DB) (rid : Nat) : Option CollabRequest :=
  db.requests.find? (fun r => r.id == rid)

/-- `DBStorage.createCollaborationRequest`: inserts with a serial id and
returns the created row. -/
def createCollaborationRequest (db : DB) (sid uid status : String) :
    CollabRequest × DB :=
  let r : CollabRequest := ⟨db.nextRequestId, sid, uid, status⟩
  (r, { db with
        requests := db.requests ++ [r],
        nextRequestId := db.nextRequestId + 1 })

/-- `DBStorage.updateCollaborationRequest` restricted to the `status` field
(the only field the routes pass). -/
def updateCollaborationRequestStatus (db : DB) (rid : Nat) (status : String) : DB :=
  { db with
    requests := db.requests.map
      (fun r => if r.id == rid then { r with status := status } else r) }

/-- `DBStorage.getFile`. -/
def getFile (db : DB) (fid : String) : Option FileRec :=
  db.filesTbl.find? (fun f => f.id == fid)

/-- `DBStorage.updateFile` restricted to the `content` field (the only field
the WebSocket handler passes). -/
def updateFileContent (db : DB) (fid : String) (content : String) : DB :=
  { db with
    filesTbl := db.filesTbl.map
      (fun f => if f.id == fid then { f with content := content } else f) }

/-- `DBStorage.createMessage`: inserts with a serial id and returns the row. -/
def createMessage (db : DB) (sid uid content : String) : MessageRec × DB :=
  let m : MessageRec := ⟨db.nextMessageId, sid, uid, content⟩
  (m, { db with
        messagesTbl := db.messagesTbl ++ [m],
        nextMessageId := db.nextMessageId + 1 })

/-- Modelled from the spec: the notification service implementation is not
under src/ (only its call sites are).  Per the spec it is a fire-and-forget
`notify(kind, targetUserId, payload)`; modelled as appending one
notification row. -/
def notify (db : DB) (uid kind : String) : DB :=
  { db with notificationsTbl := db.notificationsTbl ++ [⟨uid, kind⟩] }

/-- Modelled from the spec: `storage.getSessionParticipantsWithUsers` is
called by the routes but its implementation is not under src/.  Per the spec
the Presence Tracker returns the active participant rows of the session
(joined with usernames, which no claim inspects); modelled as the active
rows. -/
def getSessionParticipantsWithUsers (db : DB) (sid : String) (activeOnly : Bool) :
    List Participant :=
  getSessionParticipants db sid activeOnly

/-! ### Connection registry -/

/-- Look up a live client by connection identity. -/
def getClient (st : ServerState) (cid : Nat) : Option Client :=
  st.clients.find? (fun c => c.id == cid)

/-- Rebind the session of the client with the given identity. -/
def setClientSession (st : ServerState) (cid : Nat) (sid : Option String) :
    ServerState :=
  { st with
    clients := st.clients.map
      (fun c => if c.id == cid then { c with sessionId := sid } else c) }

/-- `broadcastToSession`: sends to every client whose `sessionId` equals the
target session, whose socket is OPEN, and which is not the excluded client. -/
def broadcastToSession (st : ServerState) (sid : String) (msg : WireMsg)
    (excludeId : Option Nat) : List Effect :=
  (st.clients.filter
    (fun c =>
      c.sessionId == some sid && c.live &&
        (match excludeId with
         | some e => c.id != e
         | none => true))).map
    (fun c => Effect.send c.id msg)

/-! ### WebSocket handlers (`registerRoutes`) -/

/-- The `join_session` access check, `true` exactly when the handler sends
`access_denied`.  Mirrors the routes: the check only runs for a private
session when the connection has a non-empty userId that is not the owner;
it then consults all participant rows of the session (active or not) and,
failing that, the user's accepted collaboration requests. -/
def joinDenied (db : DB) (c : Client) (sess : Session) (sid : String) : Bool :=
  !sess.isPublic && c.userId != "" && sess.ownerId != c.userId &&
    (let parts := getSessionParticipants db sid false
     if parts.any (fun p => p.userId == c.userId) then false
     else
       let reqs := getCollaborationRequestsByUser db c.userId
       !(reqs.any (fun r => r.sessionId == sid && r.status == "accepted")))

/-- JS `message.cursor || existingParticipant.cursor`. -/
def cursorOrElse (m e : Option String) : Option String :=
  match m with
  | some cu => some cu
  | none => e

/-- The participant upsert performed by `join_session` for an authenticated
client: update the row found for the user in the session, else insert. -/
def joinUpsert (db : DB) (sid uid : String) (mcursor : Option String) : DB :=
  match (getSessionParticipants db sid false).find? (fun p => p.userId == uid) with
  | some existing =>
      updateParticipant db existing.id ⟨some true, some (cursorOrElse mcursor existing.cursor)⟩
  | none => addParticipant db sid uid mcursor true

/-- The `join_session` WebSocket handler. -/
def handleJoin (st : ServerState) (cid : Nat) (msid : String)
    (mcursor : Option String) : ServerState × List Effect :=
  match getClient st cid with
  | none => (st, [])
  | some c =>
    match getSession st.db msid with
    | none => (st, [Effect.send cid (WireMsg.errorMsg "Session not found")])
    | some sess =>
      if joinDenied st.db c sess msid then
        (st, [Effect.send cid (WireMsg.accessDenied msid)])
      else
        let st1 := setClientSession st cid (some msid)
        if c.userId == "" then (st1, [])
        else
          let db1 := joinUpsert st1.db msid c.userId mcursor
          let st2 := { st1 with db := db1 }
          (st2,
            broadcastToSession st2 msid
              (WireMsg.participantsUpdate (getSessionParticipantsWithUsers db1 msid true))
              none)

/-- The `leave_session` WebSocket handler. -/
def handleLeave (st : ServerState) (cid : Nat) : ServerState × List Effect :=
  match getClient st cid with
  | none => (st, [])
  | some c =>
    match c.sessionId with
    | none => (st, [])
    | some s =>
      if c.userId != "" then
        let db1 := removeParticipant st.db s c.userId
        let stDb := { st with db := db1 }
        let effects :=
          broadcastToSession stDb s
            (WireMsg.participantsUpdate (getSessionParticipantsWithUsers db1 s true))
            none
        (setClientSession stDb cid none, effects)
      else (st, [])

/-- The socket `close` handlers: the first removes the client from the
registry; the second marks the participant inactive and re-broadcasts
presence to the remaining clients of the session. -/
def handleDisconnect (st : ServerState) (cid : Nat) : ServerState × List Effect :=
  match getClient st cid with
  | none => (st, [])
  | some c =>
    let stR := { st with clients := st.clients.filter (fun x => x.id != cid) }
    match c.sessionId with
    | none => (stR, [])
    | some s =>
      if c.userId != "" then
        let db1 := removeParticipant stR.db s c.userId
        let st1 := { stR with db := db1 }
        (st1,
          broadcastToSession st1 s
            (WireMsg.participantsUpdate (getSessionParticipantsWithUsers db1 s true))
            none)
      else (stR, [])

/-- The `code_change` WebSocket handler.  `writeOk = false` models the
storage write throwing; the surrounding `try`/`catch` only logs, so the
handler then performs no state change and sends nothing. -/
def handleCodeChange (st : ServerState) (cid : Nat) (fid content : String)
    (writeOk : Bool) : ServerState × List Effect :=
  match getClient st cid with
  | none => (st, [])
  | some c =>
    match c.sessionId with
    | none => (st, [])
    | some s =>
      match getFile st.db fid with
      | none => (st, [])
      | some file =>
        if writeOk then
          let db1 := updateFileContent st.db file.id content
          let st1 := { st with db := db1 }
          (st1,
            Effect.writeFile file.id content ::
              broadcastToSession st1 s (WireMsg.codeChangeMsg fid content c.userId)
                (some cid))
        else (st, [])

/-- The `chat_message` WebSocket handler.  `writeOk = false` models
`storage.createMessage` throwing; the `catch` only logs. -/
def handleChatMessage (st : ServerState) (cid : Nat) (content : String)
    (writeOk : Bool) : ServerState × List Effect :=
  match getClient st cid with
  | none => (st, [])
  | some c =>
    match c.sessionId with
    | none => (st, [])
    | some s =>
      if c.userId != "" then
        if writeOk then
          let md := createMessage st.db s c.userId content
          let st1 := { st with db := md.2 }
          (st1,
            Effect.insertMessage md.1 ::
              broadcastToSession st1 s (WireMsg.chatMsg md.1) none)
        else (st, [])
      else (st, [])

/-! ### Collaboration-request HTTP endpoints -/

/-- Outcome of `POST /api/sessions/:sessionId/collaboration-requests`
(for an authenticated caller). -/
inductive SubmitResult where
  | sessionNotFound
  | notApplicable
  | alreadyPending
  | created (r : CollabRequest)
  deriving DecidableEq

/-- `POST /api/sessions/:sessionId/collaboration-requests` for an
authenticated caller `userId`. -/
def submitCollabRequest (db : DB) (userId sid : String) : DB × SubmitResult :=
  match getSession db sid with
  | none => (db, SubmitResult.sessionNotFound)
  | some sess =>
    if sess.isPublic then (db, SubmitResult.notApplicable)
    else
      match (getCollaborationRequestsByUser db userId).find?
          (fun r => r.sessionId == sid && r.status == "pending") with
      | some _ => (db, SubmitResult.alreadyPending)
      | none =>
        let rd := createCollaborationRequest db sid userId "pending"
        (notify rd.2 sess.ownerId "collaboration_request", SubmitResult.created rd.1)

/-- Outcome of `PATCH /api/collaboration-requests/:id` (for an authenticated
caller). -/
inductive DecideResult where
  | notFound
  | sessionNotFound
  | forbidden
  | invalidStatus
  | ok (updated : Option CollabRequest)
  deriving DecidableEq

/-- `PATCH /api/collaboration-requests/:id` for an authenticated caller
`deciderId` submitting `status`.  Note the code updates the stored status
unconditionally: there is no pending-status guard. -/
def decideCollabRequest (db : DB) (rid : Nat) (deciderId status : String) :
    DB × DecideResult :=
  match getCollaborationRequest db rid with
  | none => (db, DecideResult.notFound)
  | some req =>
    match getSession db req.sessionId with
    | none => (db, DecideResult.sessionNotFound)
    | some sess =>
      if sess.ownerId != deciderId then (db, DecideResult.forbidden)
      else if status != "accepted" && status != "rejected" then
        (db, DecideResult.invalidStatus)
      else
        let db1 := updateCollaborationRequestStatus db rid status
        let updated := (db1.requests.filter (fun r => r.id == rid)).head?
        let db2 :=
          if status == "accepted" then
            match (getSessionParticipants db1 sess.id false).find?
                (fun p => p.userId == req.fromUserId) with
            | some _ => db1
            | none => addParticipant db1 sess.id req.fromUserId none false
          else db1
        let db3 := notify db2 req.fromUserId "request_response"
        (db3, DecideResult.ok updated)

/-! ### Slug utilities (`shared/utils.ts`) -/

/-- A JS word character (`\w`): ASCII alphanumeric or underscore. -/
def isWordChar (c : Char) : Bool :=
  c.isAlphanum || c == '_'

/-- A character kept by the first replace of `generateSlug`
(`replace(/[^\w\s-]/g, "")` removes everything else). -/
def keepChar (c : Char) : Bool :=
  isWordChar c || c.isWhitespace || c == '-'

/-- A separator character matched by `[\s_-]`. -/
def isSep (c : Char) : Bool :=
  c.isWhitespace || c == '_' || c == '-'

/-- Worker for `collapseSeps`: `inSep` records whether the previous kept
character belonged to a separator run (so the run emits only one hyphen). -/
def collapseAux : Bool → List Char → List Char
  | _, [] => []
  | inSep, c :: cs =>
    if isSep c then
      if inSep then collapseAux true cs else '-' :: collapseAux true cs
    else c :: collapseAux false cs

/-- `replace(/[\s_-]+/g, "-")`: each maximal run of separators becomes one
hyphen. -/
def collapseSeps (l : List Char) : List Char :=
  collapseAux false l

/-- `generateSlug` of `shared/utils.ts`: lowercase, trim, drop special
characters, collapse separator runs to hyphens, strip edge hyphens.  The
lowering and trimming are carried out on the character list (same semantics
as `toLowerCase().trim()`). -/
def generateSlug (text : String) : String :=
  let lowered := text.data.map Char.toLower
  let trimmed :=
    ((lowered.dropWhile Char.isWhitespace).reverse.dropWhile
      Char.isWhitespace).reverse
  let kept := trimmed.filter keepChar
  let collapsed := collapseSeps kept
  let stripped :=
    ((collapsed.dropWhile (fun c => c == '-')).reverse.dropWhile
      (fun c => c == '-')).reverse
  stripped.asString

/-- The `while (existingSlugs.includes(slug))` loop of `generateUniqueSlug`,
with explicit fuel.  `slug` is the current candidate and `counter` the next
suffix to try, exactly as in the source. -/
def uniqueSlugAux (baseSlug : String) (existingSlugs : List String) :
    String → Nat → Nat → String
  | slug, _, 0 => slug
  | slug, counter, fuel + 1 =>
    if existingSlugs.contains slug then
      uniqueSlugAux baseSlug existingSlugs
        (baseSlug ++ "-" ++ Nat.repr counter) (counter + 1) fuel
    else slug

/-- `generateUniqueSlug` of `shared/utils.ts`.  The JS loop needs no fuel;
`existingSlugs.length + 1` steps always suffice (the candidates are pairwise
distinct, see `slugCandidate_injective`), so this fuelled version computes
the same slug the loop returns. -/
def generateUniqueSlug (text : String) (existingSlugs : List String) : String :=
  let baseSlug := generateSlug text
  uniqueSlugAux baseSlug existingSlugs baseSlug 1 (existingSlugs.length + 1)

/-- The k-th candidate tried by the `generateUniqueSlug` loop. -/
def slugCandidate (base : String) : Nat → String
  | 0 => base
  | k + 1 => base ++ "-" ++ Nat.repr (k + 1)

/-- Decimal digit list of a natural number, most significant first; the
mathematical description of what `Nat.toDigits 10` computes. -/
def toDigitsList (n : Nat) : List Char :=
  if h : n / 10 = 0 then [Nat.digitChar (n % 10)]
  else toDigitsList (n / 10) ++ [Nat.digitChar (n % 10)]
termination_by n
decreasing_by
  exact Nat.div_lt_self (Nat.pos_of_ne_zero (fun hn => h (by simp [hn]))) (by decide)

/-! ### Derived notions used by the stated properties -/

/-- Number of participant rows stored for one (session, user) pair. -/
def pairCount (ps : List Participant) (sid uid : String) : Nat :=
  (ps.filter (fun p => p.sessionId == sid && p.userId == uid)).length

/-- The data-model invariant: at most one participant row per
(session, user) pair. -/
def AtMostOnePerPair (ps : List Participant) : Prop :=
  ∀ sid uid, pairCount ps sid uid ≤ 1

/-! ### Concrete states used to exercise the handlers -/

/-- Store with one private session `s1` owned by `owner` and one active
participant row for user `u`. -/
def exC1DB : DB :=
  ⟨[⟨"s1", "owner", false⟩], [⟨1, "s1", "u", none, true⟩], [], [], [], [], 2, 1, 1⟩

/-- Two live connections of the same user `u`, both joined to `s1`. -/
def exC1St : ServerState :=
  ⟨[⟨1, "u", some "s1", true⟩, ⟨2, "u", some "s1", true⟩], exC1DB⟩

/-- One unauthenticated live connection and one private session. -/
def exC2St : ServerState :=
  ⟨[⟨1, "", none, true⟩], ⟨[⟨"s1", "owner", false⟩], [], [], [], [], [], 1, 1, 1⟩⟩

/-- Store holding an already-accepted collaboration request for session
`s1` (owned by `owner`) from user `v`. -/
def exC3DB : DB :=
  ⟨[⟨"s1", "owner", false⟩], [], [⟨1, "s1", "v", "accepted"⟩], [], [], [], 1, 2, 1⟩

/-- Two connections joined to `s1` and a file `f1`; used with a failing
storage write. -/
def exC4St : ServerState :=
  ⟨[⟨1, "u", some "s1", true⟩, ⟨2, "w", some "s1", true⟩],
    ⟨[⟨"s1", "owner", true⟩], [], [], [⟨"f1", "s1", "old"⟩], [], [], 1, 1, 1⟩⟩

/-- Authenticated user `v` with an inactive participant row for the private
session `s1`, not the owner, and with no collaboration request at all. -/
def exC5St : ServerState :=
  ⟨[⟨1, "v", none, true⟩],
    ⟨[⟨"s1", "owner", false⟩], [⟨1, "s1", "v", none, false⟩], [], [], [], [], 2, 1, 1⟩⟩

/-- A private session with a pending request from `v`, used as witness data. -/
def exC6DB : DB :=
  ⟨[⟨"s1", "owner", false⟩, ⟨"s2", "owner", true⟩],
    [], [⟨1, "s1", "v", "pending"⟩], [], [], [], 1, 2, 1⟩

/-- Three connections: sender `u` and peer `w` joined to `s1`, bystander `b`
joined to `s2`; a file `f1`; used as witness data for broadcasts. -/
def exC7St : ServerState :=
  ⟨[⟨1, "u", some "s1", true⟩, ⟨2, "w", some "s1", true⟩, ⟨3, "b", some "s2", true⟩],
    ⟨[⟨"s1", "owner", true⟩, ⟨"s2", "owner", true⟩], [], [],
      [⟨"f1", "s1", "old"⟩], [], [], 1, 1, 1⟩⟩

/-! ## Theorems -/

/-! ### General helper lemmas -/

/-- With `activeOnly = false` the participant query filters on the session
id alone. -/
theorem getSessionParticipants_false (db : DB) (sid : String) :
    getSessionParticipants db sid false =
      db.participants.filter (fun p => p.sessionId == sid) := by
  simp [getSessionParticipants]

theorem setClientSession_db (st : ServerState) (cid : Nat) (sid : Option String) :
    (setClientSession st cid sid).db = st.db := rfl

/-! ### Claim C2 -/

/-- C2: the code disagrees with the claim.  At the failing input — a private
session and a connection whose user identity is unbound (`userId = ""`) —
the `join_session` handler sends nothing (no auth-required denial) and binds
the connection to the private session, because the access check is guarded
by `client.userId !== ""` and is skipped entirely for unauthenticated
connections. -/
theorem unauthenticated_private_join_binds_without_denial :
    (handleJoin exC2St 1 "s1" none).2 = [] ∧
    (handleJoin exC2St 1 "s1" none).1.clients = [⟨1, "", some "s1", true⟩] := by
  decide

/-! ### Claim C4 -/

/-- C4 (counterexample): with two connections joined to `s1`, a `code_change`
whose storage write fails produces no effect at all — in particular no
targeted error event to the originating connection 1, contrary to the
claim; the same holds for `chat_message`. -/
theorem failed_write_not_surfaced_to_origin :
    handleCodeChange exC4St 1 "f1" "new" false = (exC4St, []) ∧
    handleChatMessage exC4St 1 "hello" false = (exC4St, []) := by
  decide

/-- C4 (amended): when the storage write of a `code_change` or
`chat_message` fails, no broadcast of the event is sent to any connection
and no error event is sent to the originating connection either (the
`catch` block only logs); the state is left unchanged. -/
theorem failed_write_aborts_silently :
    (∀ st cid fid content, handleCodeChange st cid fid content false = (st, [])) ∧
    (∀ st cid content, handleChatMessage st cid content false = (st, [])) := by
  constructor
  · intro st cid fid content
    rcases hcl : getClient st cid with _ | c
    · simp [handleCodeChange, hcl]
    · rcases hs : c.sessionId with _ | s
      · simp [handleCodeChange, hcl, hs]
      · rcases hf : getFile st.db fid with _ | f
        · simp [handleCodeChange, hcl, hs, hf]
        · simp [handleCodeChange, hcl, hs, hf]
  · intro st cid content
    rcases hcl : getClient st cid with _ | c
    · simp [handleChatMessage, hcl]
    · rcases hs : c.sessionId with _ | s
      · simp [handleChatMessage, hcl, hs]
      · by_cases hu : (c.userId != "") = true <;>
          simp [handleChatMessage, hcl, hs, hu]

/-! ### Claim C1 -/

/-- C1 (counterexample): user `u` holds two live connections bound to `s1`;
after connection 1 disconnects, the participant row of (s1, u) has
`isActive = false` even though connection 2 is still live and bound to
`s1` — the persisted active flag does not track the live-connection count. -/
theorem second_connection_does_not_keep_row_active :
    (handleDisconnect exC1St 1).1.db.participants = [⟨1, "s1", "u", none, false⟩] ∧
    (⟨2, "u", some "s1", true⟩ : Client) ∈ (handleDisconnect exC1St 1).1.clients := by
  decide

/-- C1 (amended): a disconnect of any joined authenticated connection flips
every participant row of that (session, user) pair to `active = false`,
regardless of how many other live connections of the same user remain bound
to the session; the active flag records the most recent join/leave/disconnect,
not the live-connection count. -/
theorem disconnect_always_deactivates_participant
    (st : ServerState) (cid : Nat) (c : Client) (s : String)
    (hc : getClient st cid = some c) (hs : c.sessionId = some s)
    (hu : c.userId ≠ "")
    (p : Participant) (hp : p ∈ (handleDisconnect st cid).1.db.participants)
    (hps : p.sessionId = s) (hpu : p.userId = c.userId) :
    p.isActive = false := by
  have hbu : (c.userId != "") = true := by simpa using hu
  simp only [handleDisconnect, hc, hs, hbu, if_true] at hp
  simp only [removeParticipant, List.mem_map] at hp
  obtain ⟨q, hq, hfq⟩ := hp
  by_cases hcond : (q.sessionId == s && q.userId == c.userId) = true
  · rw [if_pos hcond] at hfq
    rw [← hfq]
  · rw [if_neg (by simpa using hcond)] at hfq
    exfalso
    apply hcond
    subst hfq
    simp [hps, hpu]

/-- C1 (witness for the amended theorem): the hypotheses are satisfiable at
the two-connection state `exC1St`. -/
theorem disconnect_always_deactivates_participant_witness :
    getClient exC1St 1 = some ⟨1, "u", some "s1", true⟩ ∧
    (⟨1, "s1", "u", none, false⟩ : Participant).isActive = false :=
  ⟨by decide,
    disconnect_always_deactivates_participant exC1St 1 ⟨1, "u", some "s1", true⟩ "s1"
      (by decide) rfl (by decide) ⟨1, "s1", "u", none, false⟩ (by decide) rfl rfl⟩

/-! ### Claim C5 -/

/-- C5 (counterexample): authenticated user `v` holds only an inactive
participant row for the private session `s1` (so no *active* row), is not
the owner and has no accepted request, yet the join is allowed: the
connection gets bound to `s1` and the row is flipped back to active,
because the code checks for any participant row rather than an active
one. -/
theorem inactive_row_grants_private_join :
    (handleJoin exC5St 1 "s1" none).1.clients = [⟨1, "v", some "s1", true⟩] ∧
    (handleJoin exC5St 1 "s1" none).1.db.participants =
      [⟨1, "s1", "v", none, true⟩] := by
  decide

/-- C5 (amended): for an authenticated user who is not the owner of a
private session, holds no participant row for it at all (active or
inactive), and has no accepted collaboration request for it, `join_session`
sends `access_denied` to the originating connection only and changes
nothing: the connection stays unbound and no participant row is created or
modified. -/
theorem join_denied_without_any_row_or_grant
    (st : ServerState) (cid : Nat) (msid : String) (mcur : Option String)
    (c : Client) (sess : Session)
    (hc : getClient st cid = some c) (hsess : getSession st.db msid = some sess)
    (hpriv : sess.isPublic = false) (hauth : c.userId ≠ "")
    (howner : sess.ownerId ≠ c.userId)
    (hnorow : ∀ p ∈ st.db.participants, p.sessionId = msid → p.userId ≠ c.userId)
    (hnoreq : ∀ r ∈ st.db.requests,
        r.fromUserId = c.userId → r.sessionId = msid → r.status ≠ "accepted") :
    handleJoin st cid msid mcur = (st, [Effect.send cid (WireMsg.accessDenied msid)]) := by
  have hparts :
      (getSessionParticipants st.db msid false).any
        (fun p => p.userId == c.userId) = false := by
    rw [getSessionParticipants_false]
    simp only [List.any_eq_false, List.mem_filter, beq_iff_eq]
    rintro p ⟨hpmem, hpsid⟩
    exact hnorow p hpmem hpsid
  have hreqs :
      (getCollaborationRequestsByUser st.db c.userId).any
        (fun r => r.sessionId == msid && r.status == "accepted") = false := by
    simp only [getCollaborationRequestsByUser, List.any_eq_false, List.mem_filter,
      beq_iff_eq, Bool.and_eq_true, not_and]
    rintro r ⟨hrmem, hruid⟩ hrsid
    exact hnoreq r hrmem hruid hrsid
  have hden : joinDenied st.db c sess msid = true := by
    simp only [joinDenied, hparts, hreqs, hpriv, Bool.not_false, Bool.true_and,
      if_false, Bool.and_eq_true, bne_iff_ne, ne_eq]
    exact ⟨⟨hauth, howner⟩, rfl⟩
  simp [handleJoin, hc, hsess, hden]

/-- C5 (witness for the amended theorem): a state with a private session,
an authenticated non-owner with no row and no request. -/
theorem join_denied_without_any_row_or_grant_witness :
    getClient exC2St 1 = some ⟨1, "", none, true⟩ ∧
    handleJoin (ServerState.mk [⟨1, "v", none, true⟩] exC2St.db) 1 "s1" none =
      (ServerState.mk [⟨1, "v", none, true⟩] exC2St.db,
        [Effect.send 1 (WireMsg.accessDenied "s1")]) :=
  ⟨by decide,
    join_denied_without_any_row_or_grant
      (ServerState.mk [⟨1, "v", none, true⟩] exC2St.db) 1 "s1" none
      ⟨1, "v", none, true⟩ ⟨"s1", "owner", false⟩
      (by decide) (by decide) rfl (by decide) (by decide)
      (by decide) (by decide)⟩

/-! ### Claim C3 -/

/-- C3 (counterexample): deciding the already-accepted request 1 with
decision `rejected` succeeds (no `AlreadyDecided` failure) and overwrites
the stored terminal status with `rejected`. -/
theorem decide_overwrites_accepted_request :
    (decideCollabRequest exC3DB 1 "owner" "rejected").2 =
      DecideResult.ok (some ⟨1, "s1", "v", "rejected"⟩) ∧
    (decideCollabRequest exC3DB 1 "owner" "rejected").1.requests =
      [⟨1, "s1", "v", "rejected"⟩] := by
  decide

/-- C3 (amended): the decide endpoint has no pending-status guard: for any
stored request, the session owner submitting a valid decision always
succeeds and the stored status of that request is overwritten with the new
decision — terminal statuses are not protected. -/
theorem owner_decide_always_overwrites_status
    (db : DB) (rid : Nat) (status : String)
    (req : CollabRequest) (sess : Session)
    (hreq : getCollaborationRequest db rid = some req)
    (hsess : getSession db req.sessionId = some sess)
    (hval : status = "accepted" ∨ status = "rejected") :
    (∃ upd, (decideCollabRequest db rid sess.ownerId status).2 = DecideResult.ok upd) ∧
    (∀ r ∈ (decideCollabRequest db rid sess.ownerId status).1.requests,
        r.id = rid → r.status = status) := by
  have howner : (sess.ownerId != sess.ownerId) = false := by simp
  have hvalid : (status != "accepted" && status != "rejected") = false := by
    rcases hval with h | h <;> simp [h]
  have hreqs :
      (decideCollabRequest db rid sess.ownerId status).1.requests =
        db.requests.map
          (fun r => if r.id == rid then { r with status := status } else r) := by
    simp only [decideCollabRequest, hreq, hsess, howner, hvalid, Bool.false_eq_true,
      if_false]
    split <;> (try split) <;>
      simp [notify, addParticipant, updateCollaborationRequestStatus]
  refine ⟨?_, ?_⟩
  · refine ⟨((updateCollaborationRequestStatus db rid status).requests.filter
      (fun r => r.id == rid)).head?, ?_⟩
    simp only [decideCollabRequest, hreq, hsess, howner, hvalid, Bool.false_eq_true,
      if_false]
  · intro r hr hrid
    rw [hreqs] at hr
    simp only [List.mem_map] at hr
    obtain ⟨r0, _, hfr⟩ := hr
    by_cases h0 : (r0.id == rid) = true
    · rw [if_pos h0] at hfr
      rw [← hfr]
    · rw [if_neg (by simpa using h0)] at hfr
      subst hfr
      exact absurd hrid (by simpa using h0)

/-- C3 (witness for the amended theorem): applied to the store holding the
already-accepted request. -/
theorem owner_decide_always_overwrites_status_witness :
    getCollaborationRequest exC3DB 1 = some ⟨1, "s1", "v", "accepted"⟩ ∧
    (∃ upd, (decideCollabRequest exC3DB 1 "owner" "rejected").2 = DecideResult.ok upd) :=
  ⟨by decide,
    (owner_decide_always_overwrites_status exC3DB 1 "rejected"
      ⟨1, "s1", "v", "accepted"⟩ ⟨"s1", "owner", false⟩
      (by decide) (by decide) (Or.inr rfl)).1⟩

/-! ### Claim C6 -/

/-- C6: submitting a collaboration request for a public session fails with
the not-applicable error and persists nothing, and submitting one for a
private session while a pending request of the same (user, session) pair
exists fails with the already-pending error and leaves the store — in
particular the first request — unchanged. -/
theorem submit_request_public_and_pending_guards
    (db : DB) (uid sid : String) (sess : Session)
    (hsess : getSession db sid = some sess) :
    (sess.isPublic = true →
      submitCollabRequest db uid sid = (db, SubmitResult.notApplicable)) ∧
    (sess.isPublic = false →
      ∀ r0 ∈ db.requests, r0.fromUserId = uid → r0.sessionId = sid →
        r0.status = "pending" →
        submitCollabRequest db uid sid = (db, SubmitResult.alreadyPending)) := by
  constructor
  · intro hpub
    simp [submitCollabRequest, hsess, hpub]
  · intro hpriv r0 hr0 hu hs hp
    have hfind : ((getCollaborationRequestsByUser db uid).find?
        (fun r => r.sessionId == sid && r.status == "pending")).isSome := by
      rw [List.find?_isSome]
      refine ⟨r0, ?_, ?_⟩
      · simp [getCollaborationRequestsByUser, List.mem_filter, hr0, hu]
      · simp [hs, hp]
    obtain ⟨r1, hr1⟩ := Option.isSome_iff_exists.mp hfind
    simp [submitCollabRequest, hsess, hpriv, hr1]

/-- C6 (witness): in a store with a pending request of `v` for the private
session `s1` and a public session `s2`, both guards fire. -/
theorem submit_request_public_and_pending_guards_witness :
    submitCollabRequest exC6DB "v" "s1" = (exC6DB, SubmitResult.alreadyPending) ∧
    submitCollabRequest exC6DB "v" "s2" = (exC6DB, SubmitResult.notApplicable) :=
  ⟨(submit_request_public_and_pending_guards exC6DB "v" "s1" ⟨"s1", "owner", false⟩
      (by decide)).2 rfl ⟨1, "s1", "v", "pending"⟩ (by decide) rfl rfl rfl,
    (submit_request_public_and_pending_guards exC6DB "v" "s2" ⟨"s2", "owner", true⟩
      (by decide)).1 rfl⟩

/-! ### Claim C7 -/

/-- C7: for a `code_change` from a joined connection naming an existing
file, the handler performs the storage write first and then the broadcast
(the write effect precedes every send in the trace), and the sends target
exactly the live connections bound to the same session other than the
sender — never the sender and never a connection bound to a different
session or to none. -/
theorem code_change_writes_then_broadcasts_to_others
    (st : ServerState) (cid : Nat) (fid content : String)
    (c : Client) (s : String) (file : FileRec)
    (hc : getClient st cid = some c) (hs : c.sessionId = some s)
    (hf : getFile st.db fid = some file) :
    handleCodeChange st cid fid content true =
      ({ st with db := updateFileContent st.db file.id content },
        Effect.writeFile file.id content ::
          (st.clients.filter
            (fun t => t.sessionId == some s && t.live && t.id != cid)).map
            (fun t => Effect.send t.id (WireMsg.codeChangeMsg fid content c.userId))) ∧
    (∀ tid msg,
        Effect.send tid msg ∈ (handleCodeChange st cid fid content true).2 →
        tid ≠ cid ∧
          ∃ t ∈ st.clients, t.id = tid ∧ t.sessionId = some s ∧ t.live = true) ∧
    (∀ t ∈ st.clients, t.sessionId = some s → t.live = true → t.id ≠ cid →
        Effect.send t.id (WireMsg.codeChangeMsg fid content c.userId) ∈
          (handleCodeChange st cid fid content true).2) := by
  have heq : handleCodeChange st cid fid content true =
      ({ st with db := updateFileContent st.db file.id content },
        Effect.writeFile file.id content ::
          (st.clients.filter
            (fun t => t.sessionId == some s && t.live && t.id != cid)).map
            (fun t => Effect.send t.id (WireMsg.codeChangeMsg fid content c.userId))) := by
    simp [handleCodeChange, hc, hs, hf, broadcastToSession]
  refine ⟨heq, ?_, ?_⟩
  · intro tid msg hmem
    rw [heq] at hmem
    simp only [List.mem_cons, List.mem_map, List.mem_filter, Bool.and_eq_true,
      beq_iff_eq, bne_iff_ne, ne_eq] at hmem
    rcases hmem with h | ⟨t, ⟨htmem, ⟨hts, htl⟩, htid⟩, hsend⟩
    · exact absurd h (by simp)
    · obtain ⟨rfl, -⟩ := by
        refine Effect.send.inj hsend
      exact ⟨htid, t, htmem, rfl, hts, htl⟩
  · intro t htmem hts htl htid
    rw [heq]
    simp only [List.mem_cons, List.mem_map, List.mem_filter, Bool.and_eq_true,
      beq_iff_eq, bne_iff_ne, ne_eq]
    exact Or.inr ⟨t, ⟨htmem, ⟨hts, htl⟩, htid⟩, rfl⟩

/-- C7 (witness): sender 1 and peer 2 joined to `s1`, bystander 3 joined to
`s2`; the trace is the write followed by exactly one send, to peer 2. -/
theorem code_change_writes_then_broadcasts_to_others_witness :
    handleCodeChange exC7St 1 "f1" "new" true =
      ({ exC7St with db := updateFileContent exC7St.db "f1" "new" },
        [Effect.writeFile "f1" "new",
          Effect.send 2 (WireMsg.codeChangeMsg "f1" "new" "u")]) := by
  have h := (code_change_writes_then_broadcasts_to_others exC7St 1 "f1" "new"
    ⟨1, "u", some "s1", true⟩ "s1" ⟨"f1", "s1", "old"⟩
    (by decide) rfl (by decide)).1
  rw [h]
  decide

/-! ### Claim C8 -/

/-- C8: a `chat_message` from a connection that is both joined and
authenticated persists the message and then broadcasts it to every live
connection bound to the session with no exclusion (so the sender, being
live and bound, receives it too); from a connection that is not joined or
not authenticated it persists nothing and sends nothing. -/
theorem chat_message_persists_then_broadcasts_iff_joined_auth
    (st : ServerState) (cid : Nat) (content : String) (c : Client)
    (hc : getClient st cid = some c) :
    (∀ s, c.sessionId = some s → c.userId ≠ "" →
      handleChatMessage st cid content true =
        ({ st with db := (createMessage st.db s c.userId content).2 },
          Effect.insertMessage ⟨st.db.nextMessageId, s, c.userId, content⟩ ::
            (st.clients.filter (fun t => t.sessionId == some s && t.live)).map
              (fun t => Effect.send t.id
                (WireMsg.chatMsg ⟨st.db.nextMessageId, s, c.userId, content⟩)))) ∧
    (∀ s, c.sessionId = some s → c.userId ≠ "" → c.live = true →
      Effect.send cid (WireMsg.chatMsg ⟨st.db.nextMessageId, s, c.userId, content⟩) ∈
        (handleChatMessage st cid content true).2) ∧
    (c.userId = "" → handleChatMessage st cid content true = (st, [])) ∧
    (c.sessionId = none → handleChatMessage st cid content true = (st, [])) := by
  have hcm : c ∈ st.clients := List.mem_of_find?_eq_some hc
  have hcid : c.id = cid := by simpa using List.find?_some hc
  have hmain : ∀ s, c.sessionId = some s → c.userId ≠ "" →
      handleChatMessage st cid content true =
        ({ st with db := (createMessage st.db s c.userId content).2 },
          Effect.insertMessage ⟨st.db.nextMessageId, s, c.userId, content⟩ ::
            (st.clients.filter (fun t => t.sessionId == some s && t.live)).map
              (fun t => Effect.send t.id
                (WireMsg.chatMsg ⟨st.db.nextMessageId, s, c.userId, content⟩))) := by
    intro s hs hu
    have hbu : (c.userId != "") = true := by simpa using hu
    simp [handleChatMessage, hc, hs, hbu, broadcastToSession, createMessage]
  refine ⟨hmain, ?_, ?_, ?_⟩
  · intro s hs hu hl
    rw [hmain s hs hu]
    simp only [List.mem_cons, List.mem_map, List.mem_filter, Bool.and_eq_true,
      beq_iff_eq]
    exact Or.inr ⟨c, ⟨hcm, hs, hl⟩, by rw [hcid]⟩
  · intro hu
    have hbu : (c.userId != "") = false := by simp [hu]
    rcases hsid : c.sessionId with _ | s
    · simp [handleChatMessage, hc, hsid]
    · simp [handleChatMessage, hc, hsid, hbu]
  · intro hs
    simp [handleChatMessage, hc, hs]

/-- C8 (witness): sender 1 (live, joined to `s1`, authenticated) and peer 2
joined to `s1`; the message reaches the sender as well. -/
theorem chat_message_persists_then_broadcasts_iff_joined_auth_witness :
    Effect.send 1 (WireMsg.chatMsg ⟨1, "s1", "u", "hi"⟩) ∈
      (handleChatMessage exC7St 1 "hi" true).2 :=
  (chat_message_persists_then_broadcasts_iff_joined_auth exC7St 1 "hi"
    ⟨1, "u", some "s1", true⟩ (by decide)).2.1 "s1" rfl (by decide) rfl

/-! ### Claim C9: helper lemmas -/

theorem pairCount_le_length (ps : List Participant) (sid uid : String) :
    pairCount ps sid uid ≤ ps.length :=
  List.length_filter_le _ _

theorem pairCount_append (l₁ l₂ : List Participant) (sid uid : String) :
    pairCount (l₁ ++ l₂) sid uid = pairCount l₁ sid uid + pairCount l₂ sid uid := by
  simp [pairCount]

/-- Mapping a function that preserves the session and user fields leaves
every pair count unchanged. -/
theorem pairCount_map_keys (l : List Participant) (f : Participant → Participant)
    (hf : ∀ p, (f p).sessionId = p.sessionId ∧ (f p).userId = p.userId)
    (sid uid : String) :
    pairCount (l.map f) sid uid = pairCount l sid uid := by
  unfold pairCount
  rw [List.filter_map, List.length_map]
  congr 1
  apply List.filter_congr
  intro p _
  simp [Function.comp, (hf p).1, (hf p).2]

/-- If the `join_session` lookup finds no row of the user in the session,
the pair count is zero. -/
theorem find?_userId_none_pairCount_zero (db : DB) (sid uid : String)
    (h : (getSessionParticipants db sid false).find? (fun p => p.userId == uid) = none) :
    pairCount db.participants sid uid = 0 := by
  rw [getSessionParticipants_false, List.find?_eq_none] at h
  unfold pairCount
  rw [List.length_eq_zero, List.filter_eq_nil_iff]
  intro p hp
  simp only [Bool.and_eq_true, beq_iff_eq, not_and]
  intro hsid huid
  exact absurd (by simp [huid]) (h p (List.mem_filter.mpr ⟨hp, by simp [hsid]⟩))

/-- Mapping a row-wise soft-delete function relates a participant table to
its image: each row is either untouched or flipped inactive. -/
theorem forall₂_deactivate_map (l : List Participant) (f : Participant → Participant)
    (hf : ∀ p, f p = p ∨ f p = { p with isActive := false }) :
    List.Forall₂ (fun p q => q = p ∨ q = { p with isActive := false }) l (l.map f) := by
  induction l with
  | nil => simp
  | cons p t ih => exact List.Forall₂.cons (hf p) ih

theorem forall₂_deactivate_refl (l : List Participant) :
    List.Forall₂ (fun p q => q = p ∨ q = { p with isActive := false }) l l := by
  have h := forall₂_deactivate_map l id (fun p => Or.inl rfl)
  simp only [List.map_id] at h
  exact h

/-! ### Claim C9 -/

/-- C9: starting from a store with at most one participant row per
(session, user) pair, a `join_session` preserves the invariant, a
`leave_session` or disconnect relates every row to itself or to its
inactive copy (rows are never deleted and never created), and an allowed
authenticated join leaves exactly one row of the joining pair, and that
row is active — i.e. join creates the row when absent or flips the
existing one active; finally, a leave from a joined authenticated
connection flips every row of its pair to inactive. -/
theorem participant_rows_unique_and_soft_deleted
    (st : ServerState) (hA : AtMostOnePerPair st.db.participants) :
    (∀ cid msid mcur,
        AtMostOnePerPair (handleJoin st cid msid mcur).1.db.participants) ∧
    (∀ cid, List.Forall₂ (fun p q => q = p ∨ q = { p with isActive := false })
        st.db.participants (handleLeave st cid).1.db.participants) ∧
    (∀ cid, List.Forall₂ (fun p q => q = p ∨ q = { p with isActive := false })
        st.db.participants (handleDisconnect st cid).1.db.participants) ∧
    (∀ cid c s, getClient st cid = some c → c.sessionId = some s →
        c.userId ≠ "" →
        ∀ p ∈ (handleLeave st cid).1.db.participants,
          p.sessionId = s → p.userId = c.userId → p.isActive = false) ∧
    (∀ cid c sess msid mcur, getClient st cid = some c →
        getSession st.db msid = some sess →
        joinDenied st.db c sess msid = false → c.userId ≠ "" →
        pairCount (handleJoin st cid msid mcur).1.db.participants msid c.userId = 1 ∧
        ∀ p ∈ (handleJoin st cid msid mcur).1.db.participants,
          p.sessionId = msid → p.userId = c.userId → p.isActive = true) := by
  have hupd : ∀ pid u, ∀ p : Participant,
      ((if p.id == pid then applyParticipantUpdate p u else p).sessionId = p.sessionId ∧
        (if p.id == pid then applyParticipantUpdate p u else p).userId = p.userId) := by
    intro pid u p
    by_cases h : (p.id == pid) = true <;> simp [h, applyParticipantUpdate]
  have hjoin : ∀ cid c msid mcur, getClient st cid = some c →
      (handleJoin st cid msid mcur).1.db.participants = st.db.participants ∨
      (c.userId == "") = false ∧
        (handleJoin st cid msid mcur).1.db.participants =
          (joinUpsert st.db msid c.userId mcur).participants := by
    intro cid c msid mcur hcl
    rcases hsess : getSession st.db msid with _ | sess
    · exact Or.inl (by simp [handleJoin, hcl, hsess])
    · by_cases hden : joinDenied st.db c sess msid = true
      · exact Or.inl (by simp [handleJoin, hcl, hsess, hden])
      · rw [Bool.not_eq_true] at hden
        by_cases hu : (c.userId == "") = true
        · exact Or.inl (by simp [handleJoin, hcl, hsess, hden, hu, setClientSession])
        · rw [Bool.not_eq_true] at hu
          refine Or.inr ⟨hu, ?_⟩
          simp [handleJoin, hcl, hsess, hden, hu, setClientSession]
  have hupsert : ∀ msid uid mcur,
      AtMostOnePerPair (joinUpsert st.db msid uid mcur).participants := by
    intro msid uid mcur sid' uid'
    rcases hfind : (getSessionParticipants st.db msid false).find?
        (fun p => p.userId == uid) with _ | existing
    · have h0 := find?_userId_none_pairCount_zero st.db msid uid hfind
      simp only [joinUpsert, hfind, addParticipant, pairCount_append]
      by_cases hmatch : msid = sid' ∧ uid = uid'
      · obtain ⟨rfl, rfl⟩ := hmatch
        rw [h0]
        simp [pairCount]
      · have h1 : pairCount [⟨st.db.nextParticipantId, msid, uid, mcur, true⟩] sid' uid' = 0 := by
          unfold pairCount
          rw [List.length_eq_zero, List.filter_eq_nil_iff]
          intro p hp
          simp only [List.mem_singleton] at hp
          subst hp
          simp only [Bool.and_eq_true, beq_iff_eq, not_and]
          intro h2 h3
          exact hmatch ⟨h2, h3⟩
        rw [h1]
        simpa using hA sid' uid'
    · simp only [joinUpsert, hfind, updateParticipant]
      rw [pairCount_map_keys _ _ (hupd existing.id _)]
      exact hA sid' uid'
  refine ⟨?_, ?_, ?_, ?_, ?_⟩
  · intro cid msid mcur
    rcases hcl : getClient st cid with _ | c
    · simpa [handleJoin, hcl] using hA
    · rcases hjoin cid c msid mcur hcl with h | ⟨-, h⟩
      · rw [h]; exact hA
      · rw [h]; exact hupsert msid c.userId mcur
  · intro cid
    rcases hcl : getClient st cid with _ | c
    · simp only [handleLeave, hcl]
      exact forall₂_deactivate_refl _
    · rcases hsid : c.sessionId with _ | s
      · simp only [handleLeave, hcl, hsid]
        exact forall₂_deactivate_refl _
      · by_cases hu : (c.userId != "") = true
        · simp only [handleLeave, hcl, hsid, hu, if_true, setClientSession,
            removeParticipant, List.map_map]
          refine forall₂_deactivate_map _ _ ?_
          intro p
          by_cases h : (p.sessionId == s && p.userId == c.userId) = true <;>
            simp [h]
        · simp only [handleLeave, hcl, hsid, hu, if_false]
          exact forall₂_deactivate_refl _
  · intro cid
    rcases hcl : getClient st cid with _ | c
    · simp only [handleDisconnect, hcl]
      exact forall₂_deactivate_refl _
    · rcases hsid : c.sessionId with _ | s
      · simp only [handleDisconnect, hcl, hsid]
        exact forall₂_deactivate_refl _
      · by_cases hu : (c.userId != "") = true
        · simp only [handleDisconnect, hcl, hsid, hu, if_true, removeParticipant]
          refine forall₂_deactivate_map _ _ ?_
          intro p
          by_cases h : (p.sessionId == s && p.userId == c.userId) = true <;>
            simp [h]
        · simp only [handleDisconnect, hcl, hsid, hu, if_false]
          exact forall₂_deactivate_refl _
  · intro cid c s hcl hsid hu p hp hps hpu
    have hbu : (c.userId != "") = true := by simpa using hu
    simp only [handleLeave, hcl, hsid, hbu, if_true, setClientSession,
      removeParticipant, List.mem_map] at hp
    obtain ⟨q, hq, hfq⟩ := hp
    by_cases hcond : (q.sessionId == s && q.userId == c.userId) = true
    · rw [if_pos hcond] at hfq
      rw [← hfq]
    · rw [if_neg (by simpa using hcond)] at hfq
      exfalso
      apply hcond
      subst hfq
      simp [hps, hpu]
  · intro cid c sess msid mcur hcl hsess hden hu
    have hbu : (c.userId == "") = false := by simp [hu]
    have hres : (handleJoin st cid msid mcur).1.db.participants =
        (joinUpsert st.db msid c.userId mcur).participants := by
      simp [handleJoin, hcl, hsess, hden, hbu, setClientSession]
    rw [hres]
    rcases hfind : (getSessionParticipants st.db msid false).find?
        (fun p => p.userId == c.userId) with _ | existing
    · have h0 := find?_userId_none_pairCount_zero st.db msid c.userId hfind
      constructor
      · simp only [joinUpsert, hfind, addParticipant, pairCount_append, h0]
        simp [pairCount]
      · intro p hp hpsid hpuid
        simp only [joinUpsert, hfind, addParticipant, List.mem_append,
          List.mem_singleton] at hp
        rcases hp with hp | hp
        · exfalso
          have hne : pairCount st.db.participants msid c.userId ≠ 0 := by
            unfold pairCount
            have hmem : p ∈ st.db.participants.filter
                (fun q => q.sessionId == msid && q.userId == c.userId) :=
              List.mem_filter.mpr ⟨hp, by simp [hpsid, hpuid]⟩
            intro hlen
            rw [List.length_eq_zero] at hlen
            rw [hlen] at hmem
            simp at hmem
          exact hne h0
        · subst hp
          rfl
    · have hpred : existing.userId = c.userId := by
        simpa using List.find?_some hfind
      have hmemf := List.mem_of_find?_eq_some hfind
      rw [getSessionParticipants_false] at hmemf
      have hmem : existing ∈ st.db.participants := (List.mem_filter.mp hmemf).1
      have hsid : existing.sessionId = msid := by
        have := (List.mem_filter.mp hmemf).2
        simpa using this
      have hmemPair : existing ∈ st.db.participants.filter
          (fun q => q.sessionId == msid && q.userId == c.userId) :=
        List.mem_filter.mpr ⟨hmem, by simp [hsid, hpred]⟩
      have hcount1 : pairCount st.db.participants msid c.userId = 1 := by
        refine le_antisymm (hA msid c.userId) ?_
        exact List.length_pos_of_mem hmemPair
      have hsingle : st.db.participants.filter
          (fun q => q.sessionId == msid && q.userId == c.userId) = [existing] := by
        have hlen : (st.db.participants.filter
            (fun q => q.sessionId == msid && q.userId == c.userId)).length = 1 :=
          hcount1
        obtain ⟨a, ha⟩ := List.length_eq_one.mp hlen
        rw [ha] at hmemPair ⊢
        simp only [List.mem_singleton] at hmemPair
        rw [hmemPair]
      constructor
      · simp only [joinUpsert, hfind, updateParticipant]
        rw [pairCount_map_keys _ _ (hupd existing.id _)]
        exact hcount1
      · intro p hp hpsid hpuid
        simp only [joinUpsert, hfind, updateParticipant] at hp
        have hpair : p ∈ (st.db.participants.map
            (fun q => if q.id == existing.id
              then applyParticipantUpdate q ⟨some true, some (cursorOrElse mcur existing.cursor)⟩
              else q)).filter
            (fun q => q.sessionId == msid && q.userId == c.userId) :=
          List.mem_filter.mpr ⟨hp, by simp [hpsid, hpuid]⟩
        rw [List.filter_map] at hpair
        have hcongr : List.filter
            ((fun q => q.sessionId == msid && q.userId == c.userId) ∘ fun q =>
              if (q.id == existing.id) = true then
                applyParticipantUpdate q
                  ⟨some true, some (cursorOrElse mcur existing.cursor)⟩
              else q)
            st.db.participants =
            List.filter (fun q => q.sessionId == msid && q.userId == c.userId)
              st.db.participants := by
          apply List.filter_congr
          intro q hq
          simp only [Function.comp]
          rw [(hupd existing.id
            ⟨some true, some (cursorOrElse mcur existing.cursor)⟩ q).1,
            (hupd existing.id
              ⟨some true, some (cursorOrElse mcur existing.cursor)⟩ q).2]
        rw [hcongr, hsingle] at hpair
        simp only [List.map_cons, List.map_nil, List.mem_singleton] at hpair
        subst hpair
        simp [applyParticipantUpdate]

/-- C9 (witness): joining `s1` as `v` from the one-row state `exC5St`
leaves exactly one row of the pair (s1, v). -/
theorem participant_rows_unique_and_soft_deleted_witness :
    pairCount (handleJoin exC5St 1 "s1" none).1.db.participants "s1" "v" = 1 :=
  ((participant_rows_unique_and_soft_deleted exC5St
      (fun sid uid => (pairCount_le_length exC5St.db.participants sid uid).trans
        (by decide))).2.2.2.2
    1 ⟨1, "v", none, true⟩ ⟨"s1", "owner", false⟩ "s1" none
    (by decide) (by decide) (by decide) (by decide)).1

/-! ### Claim C10: decimal-representation helper lemmas -/

theorem toDigitsList_eq (n : Nat) :
    toDigitsList n =
      (if n / 10 = 0 then [] else toDigitsList (n / 10)) ++ [Nat.digitChar (n % 10)] := by
  rw [toDigitsList]
  split <;> simp

theorem toDigitsList_ne_nil (n : Nat) : toDigitsList n ≠ [] := by
  rw [toDigitsList_eq]
  simp

theorem digitChar_inj_lt : ∀ a, a < 10 → ∀ b, b < 10 →
    Nat.digitChar a = Nat.digitChar b → a = b := by decide

theorem toDigitsList_injective : ∀ m n, toDigitsList m = toDigitsList n → m = n := by
  intro m
  induction m using Nat.strong_induction_on with
  | _ m ih =>
    intro n h
    rw [toDigitsList_eq m, toDigitsList_eq n] at h
    have hlast := List.append_inj' h (by simp)
    have hmod : m % 10 = n % 10 := by
      have h2 := hlast.2
      simp only [List.cons.injEq] at h2
      exact digitChar_inj_lt _ (Nat.mod_lt _ (by decide)) _ (Nat.mod_lt _ (by decide)) h2.1
    by_cases hm : m / 10 = 0 <;> by_cases hn : n / 10 = 0
    · have hm10 := Nat.div_add_mod m 10
      have hn10 := Nat.div_add_mod n 10
      omega
    · exfalso
      have h1 := hlast.1
      rw [if_pos hm, if_neg hn] at h1
      exact toDigitsList_ne_nil _ h1.symm
    · exfalso
      have h1 := hlast.1
      rw [if_neg hm, if_pos hn] at h1
      exact toDigitsList_ne_nil _ h1
    · have hdiv : m / 10 = n / 10 := by
        have h1 := hlast.1
        rw [if_neg hm, if_neg hn] at h1
        exact ih (m / 10) (Nat.div_lt_self (by omega) (by decide)) (n / 10) h1
      have hm10 := Nat.div_add_mod m 10
      have hn10 := Nat.div_add_mod n 10
      omega

/-- With enough fuel, the fuelled core of `Nat.repr` produces the decimal
digit list. -/
theorem toDigitsCore_eq (f : Nat) : ∀ n acc, n < f →
    Nat.toDigitsCore 10 f n acc = toDigitsList n ++ acc := by
  induction f with
  | zero => intro n acc h; omega
  | succ f ih =>
    intro n acc h
    rw [Nat.toDigitsCore]
    by_cases h0 : n / 10 = 0
    · simp only [h0, if_true]
      rw [toDigitsList_eq]
      simp [h0]
    · simp only [h0, if_false]
      have hlt : n / 10 < f := by
        have h1 : n / 10 < n := Nat.div_lt_self (by omega) (by decide)
        omega
      rw [ih (n / 10) (Nat.digitChar (n % 10) :: acc) hlt]
      rw [toDigitsList_eq n]
      simp [h0]

theorem repr_eq_toDigitsList (n : Nat) : Nat.repr n = (toDigitsList n).asString := by
  show (Nat.toDigits 10 n).asString = _
  rw [show Nat.toDigits 10 n = Nat.toDigitsCore 10 (n + 1) n [] from rfl]
  rw [toDigitsCore_eq (n + 1) n [] (Nat.lt_succ_self n)]
  simp

theorem repr_injective : ∀ m n : Nat, Nat.repr m = Nat.repr n → m = n := by
  intro m n h
  rw [repr_eq_toDigitsList, repr_eq_toDigitsList] at h
  exact toDigitsList_injective m n (congrArg String.data h)

/-- The candidates tried by the slug loop are pairwise distinct. -/
theorem slugCandidate_injective (base : String) :
    Function.Injective (slugCandidate base) := by
  intro i j h
  match i, j with
  | 0, 0 => rfl
  | 0, j + 1 =>
    exfalso
    have hd := congrArg String.data h
    simp only [slugCandidate, String.data_append] at hd
    have hlen := congrArg List.length hd
    have hr : (Nat.repr (j + 1)).data ≠ [] := by
      rw [repr_eq_toDigitsList]
      exact toDigitsList_ne_nil _
    have hrlen : (Nat.repr (j + 1)).data.length ≠ 0 := fun h0 =>
      hr (List.length_eq_zero.mp h0)
    simp only [List.length_append] at hlen
    omega
  | i + 1, 0 =>
    exfalso
    have hd := congrArg String.data h
    simp only [slugCandidate, String.data_append] at hd
    have hlen := congrArg List.length hd
    have hr : (Nat.repr (i + 1)).data ≠ [] := by
      rw [repr_eq_toDigitsList]
      exact toDigitsList_ne_nil _
    have hrlen : (Nat.repr (i + 1)).data.length ≠ 0 := fun h0 =>
      hr (List.length_eq_zero.mp h0)
    simp only [List.length_append] at hlen
    omega
  | i + 1, j + 1 =>
    have hd := congrArg String.data h
    simp only [slugCandidate, String.data_append, List.append_assoc] at hd
    have hd2 := List.append_cancel_left hd
    have hd3 := List.append_cancel_left hd2
    have hrepr : Nat.repr (i + 1) = Nat.repr (j + 1) := String.ext hd3
    have := repr_injective _ _ hrepr
    omega

/-- Among the first `length + 1` candidates at least one avoids the list. -/
theorem exists_candidate_not_mem (base : String) (l : List String) :
    ∃ j, j < l.length + 1 ∧ slugCandidate base j ∉ l := by
  by_contra hcon
  push_neg at hcon
  have hsub : (List.range (l.length + 1)).map (slugCandidate base) ⊆ l := by
    intro x hx
    simp only [List.mem_map, List.mem_range] at hx
    obtain ⟨j, hj, rfl⟩ := hx
    exact hcon j hj
  have hnd : ((List.range (l.length + 1)).map (slugCandidate base)).Nodup :=
    (List.nodup_range _).map (slugCandidate_injective base)
  have hlen := List.Subperm.length_le (List.subperm_of_subset hnd hsub)
  simp only [List.length_map, List.length_range] at hlen
  omega

/-- The fuelled loop returns a slug outside the list as soon as some
candidate within the remaining fuel avoids the list. -/
theorem uniqueSlugAux_not_mem (base : String) (l : List String) :
    ∀ fuel i, (∃ j, j < fuel ∧ slugCandidate base (i + j) ∉ l) →
      uniqueSlugAux base l (slugCandidate base i) (i + 1) fuel ∉ l := by
  intro fuel
  induction fuel with
  | zero =>
    rintro i ⟨j, hj, -⟩
    omega
  | succ f ih =>
    rintro i ⟨j, hj, hout⟩
    simp only [uniqueSlugAux]
    by_cases hin : l.contains (slugCandidate base i) = true
    · rw [if_pos hin]
      have hmem : slugCandidate base i ∈ l := by simpa using hin
      have hj0 : j ≠ 0 := by
        rintro rfl
        exact hout (by simpa using hmem)
      obtain ⟨j', rfl⟩ := Nat.exists_eq_succ_of_ne_zero hj0
      have hout2 : slugCandidate base ((i + 1) + j') ∉ l := by
        have harith : i + (j' + 1) = (i + 1) + j' := by omega
        rw [harith] at hout
        exact hout
      have hnext : base ++ "-" ++ Nat.repr (i + 1) = slugCandidate base (i + 1) := rfl
      rw [hnext]
      exact ih (i + 1) ⟨j', by omega, hout2⟩
    · rw [if_neg hin]
      intro hmem
      exact hin (by simpa using hmem)

/-! ### Claim C10 -/

/-- C10: `generateUniqueSlug` always returns a slug that is not in the
existing-slugs list, and when the base slug derived from the text is not
already taken it returns exactly the base slug. -/
theorem generateUniqueSlug_avoids_existing (text : String) (l : List String) :
    generateUniqueSlug text l ∉ l ∧
    (generateSlug text ∉ l → generateUniqueSlug text l = generateSlug text) := by
  constructor
  · obtain ⟨j, hj, hout⟩ := exists_candidate_not_mem (generateSlug text) l
    have h := uniqueSlugAux_not_mem (generateSlug text) l (l.length + 1) 0
      ⟨j, hj, by simpa using hout⟩
    simpa [generateUniqueSlug, slugCandidate] using h
  · intro hbase
    have hc : l.contains (generateSlug text) = false := by
      simpa using hbase
    show uniqueSlugAux (generateSlug text) l (generateSlug text) 1 (l.length + 1) =
      generateSlug text
    simp only [uniqueSlugAux, hc]
    simp

/-- C10 (witness): the inner implication holds at a concrete input. -/
theorem generateUniqueSlug_avoids_existing_witness :
    generateUniqueSlug "Hello" ["other"] ∉ ["other"] ∧
    generateSlug "Hello" ∉ ["other"] ∧
    generateUniqueSlug "Hello" ["other"] = generateSlug "Hello" :=
  ⟨(generateUniqueSlug_avoids_existing "Hello" ["other"]).1, by decide,
    (generateUniqueSlug_avoids_existing "Hello" ["other"]).2 (by decide)⟩

end CodeCollab
